import Mathlib

/-!
Verification of the edge-constraint engine of the tessellation editor
(`src/Triangle.tsx`, `src/Square.tsx`, `src/Hexagon.tsx`).

The JavaScript numbers are modelled as real numbers.  The JS idiom
`x || 1` on a number (used as a division guard throughout the source)
is modelled by `jsOr x 1`, which returns `1` exactly when `x = 0`
(for the non-negative quantities it is applied to in this code, `0`
is the only falsy value a real-valued model can produce).

An edge-path map `Record<number, Point[]>` is modelled as a total
function `ℕ → List Point`; a key that is absent in the JS record and a
key holding an empty array are identified (the code guards both with
`!pts || pts.length === 0`), and reading `pts[i]` is modelled by
`getP`, total with default `⟨0, 0⟩`.
-/

/-- A 2D point, as in `export type Point = { x: number; y: number }`. -/
@[ext]
structure Point where
  x : ℝ
  y : ℝ

/-- The `activePoint` record `{ edgeIdx: number; pointIdx: number }`. -/
structure ActivePoint where
  edgeIdx : ℕ
  pointIdx : ℕ

/-- The `triSymmetry` flag `'cw' | 'ccw'`. -/
inductive TriSym where
  | cw
  | ccw
deriving DecidableEq

/-- The hexagon `transformType` flag `'rotate120' | 'translate' | 'glide'`. -/
inductive HexMode where
  | rotate120
  | translate
  | glide
deriving DecidableEq

/-- The square `transformType` flag `'rotate90' | 'translate' | 'glide'`. -/
inductive SqMode where
  | rotate90
  | translate
  | glide
deriving DecidableEq

/-- An edge-path map `Record<number, Point[]>`. -/
def Paths : Type := ℕ → List Point

/-- Array indexing `l[i]`, totalised with default point `(0, 0)`. -/
def getP (l : List Point) (i : ℕ) : Point :=
  l.getD i ⟨0, 0⟩

/-- The record update `m[k] = v`. -/
def updatePaths (m : Paths) (k : ℕ) (v : List Point) : Paths :=
  fun i => if i = k then v else m i

/-- The JS guard `a || b` on numbers, for the non-negative reals this
source applies it to: returns `b` exactly when `a = 0`. -/
noncomputable def jsOr (a b : ℝ) : ℝ :=
  if a = 0 then b else a

/-- `const paired = triSymmetry === 'cw' ? (driven + 2) % 3 : (driven + 1) % 3`
with `driven = 1` (`src/Triangle.tsx`). -/
def triPaired (sym : TriSym) : ℕ :=
  match sym with
  | .cw => (1 + 2) % 3
  | .ccw => (1 + 1) % 3

/-- `const spare = [0,1,2].find(x => x !== driven && x !== paired)!`
(`src/Triangle.tsx`). -/
def triSpare (sym : TriSym) : ℕ :=
  ((([0, 1, 2] : List ℕ).find? (fun x => x != 1 && x != triPaired sym)).getD 0)

/-- `applyTriangleEdit` (`src/Triangle.tsx`): editing the driven (bottom)
edge recomputes the paired edge from each driven control point's `(t, d)`
projection; editing the spare edge mirrors the other spare point through
the spare edge's midpoint. -/
noncomputable def applyTriangleEdit (newPaths : Paths) (activePoint : Option ActivePoint)
    (baseVertices : List Point) (triSymmetry : TriSym) : Paths :=
  match activePoint with
  | none => newPaths
  | some ap =>
    let driven : ℕ := 1
    let paired : ℕ := triPaired triSymmetry
    let spare : ℕ := triSpare triSymmetry
    let p1 : Paths :=
      if ap.edgeIdx = driven then
        let v0 := getP baseVertices driven
        let v1 := getP baseVertices ((driven + 1) % 3)
        let pv0 := getP baseVertices paired
        let pv1 := getP baseVertices ((paired + 1) % 3)
        let drivenPts := newPaths driven
        let pairedPts := drivenPts.map (fun cp =>
          let edgeLen2 := (v1.x - v0.x) ^ 2 + (v1.y - v0.y) ^ 2
          let t := if 0 < edgeLen2 then
              ((cp.x - v0.x) * (v1.x - v0.x) + (cp.y - v0.y) * (v1.y - v0.y)) / edgeLen2
            else 0.5
          let ex := v1.x - v0.x
          let ey := v1.y - v0.y
          let len := jsOr (Real.sqrt edgeLen2) 1
          let nx := -ey / len
          let ny := ex / len
          let d := (cp.x - v0.x) * nx + (cp.y - v0.y) * ny
          let tPaired := 1 - t
          let baseX := pv0.x + tPaired * (pv1.x - pv0.x)
          let baseY := pv0.y + tPaired * (pv1.y - pv0.y)
          let pex := pv1.x - pv0.x
          let pey := pv1.y - pv0.y
          let plen := jsOr (Real.sqrt (pex ^ 2 + pey ^ 2)) 1
          let pnx := -pey / plen
          let pny := pex / plen
          ({ x := baseX + (-d) * pnx, y := baseY + (-d) * pny } : Point))
        updatePaths newPaths paired pairedPts
      else newPaths
    if ap.edgeIdx = spare then
      let pts := p1 spare
      if 2 ≤ pts.length then
        let v0 := getP baseVertices spare
        let v1 := getP baseVertices ((spare + 1) % 3)
        let mx := (v0.x + v1.x) / 2
        let my := (v0.y + v1.y) / 2
        let movedIdx := ap.pointIdx
        let otherIdx := if movedIdx = 0 then 1 else 0
        let moved := getP pts movedIdx
        updatePaths p1 spare
          (pts.set otherIdx { x := 2 * mx - moved.x, y := 2 * my - moved.y })
      else p1
    else p1

/-- The record returned by the hexagon's local `computeTD` helper. -/
structure TDInfo where
  t : ℝ
  d : ℝ
  projx : ℝ
  projy : ℝ
  ndx : ℝ
  ndy : ℝ

/-- The `computeTD` helper of `applyHexagonEdit` (`src/Hexagon.tsx`):
projection parameter `t` and signed distance `d` of `p` from edge
`edgeIdx` of the hexagon `baseVertices`, with the `|| 1` guards of the
source. -/
noncomputable def hexComputeTD (baseVertices : List Point) (edgeIdx : ℕ) (p : Point) : TDInfo :=
  let v0 := getP baseVertices edgeIdx
  let v1 := getP baseVertices ((edgeIdx + 1) % 6)
  let ex := v1.x - v0.x
  let ey := v1.y - v0.y
  let len2 := jsOr (ex * ex + ey * ey) 1
  let t := ((p.x - v0.x) * ex + (p.y - v0.y) * ey) / len2
  let projx := v0.x + t * ex
  let projy := v0.y + t * ey
  let nx := -ey
  let ny := ex
  let nlen := jsOr (Real.sqrt (nx * nx + ny * ny)) 1
  let ndx := nx / nlen
  let ndy := ny / nlen
  let d := (p.x - projx) * ndx + (p.y - projy) * ndy
  ⟨t, d, projx, projy, ndx, ndy⟩

/-- `applyHexagonEdit` (`src/Hexagon.tsx`): in `rotate120` mode an odd
edge drives its previous even edge at `(1 - t, -d)`; in `translate` mode
an edge of `{1,3,5}` drives the opposite edge by the midpoint delta; in
`glide` mode an edge of `{1,3,5}` drives the opposite edge at `(t, -d)`.
All other edits return the input unchanged. -/
noncomputable def applyHexagonEdit (newPaths : Paths) (activePoint : Option ActivePoint)
    (baseVertices : List Point) (transformType : HexMode) : Paths :=
  match activePoint with
  | none => newPaths
  | some ap =>
    let ei := ap.edgeIdx
    let pts := newPaths ei
    if pts.length = 0 then newPaths
    else
      let pairedOpt : Option ℕ :=
        match transformType with
        | .rotate120 => if ei % 2 = 1 then some ((ei + 5) % 6) else none
        | _ => if ei ∈ ([1, 3, 5] : List ℕ) then some ((ei + 3) % 6) else none
      match pairedOpt with
      | none => newPaths
      | some paired =>
        let moved := getP pts ap.pointIdx
        let td := hexComputeTD baseVertices ei moved
        let pv0 := getP baseVertices paired
        let pv1 := getP baseVertices ((paired + 1) % 6)
        let pex := pv1.x - pv0.x
        let pey := pv1.y - pv0.y
        let plen := jsOr (Real.sqrt (pex * pex + pey * pey)) 1
        match transformType with
        | .rotate120 =>
          let tPaired := 1 - td.t
          let dPaired := -td.d
          let baseX := pv0.x + tPaired * pex
          let baseY := pv0.y + tPaired * pey
          let nx := -pey / plen
          let ny := pex / plen
          updatePaths newPaths paired [{ x := baseX + dPaired * nx, y := baseY + dPaired * ny }]
        | .translate =>
          let mv0 := getP baseVertices ei
          let mv1 := getP baseVertices ((ei + 1) % 6)
          let movedBaseMidX := mv0.x + (mv1.x - mv0.x) * 0.5
          let movedBaseMidY := mv0.y + (mv1.y - mv0.y) * 0.5
          let deltaX := moved.x - movedBaseMidX
          let deltaY := moved.y - movedBaseMidY
          let pairedMidX := pv0.x + pex * 0.5
          let pairedMidY := pv0.y + pey * 0.5
          updatePaths newPaths paired [{ x := pairedMidX + deltaX, y := pairedMidY + deltaY }]
        | .glide =>
          let tPaired := td.t
          let dPaired := -td.d
          let baseX := pv0.x + tPaired * pex
          let baseY := pv0.y + tPaired * pey
          let nx := -pey / plen
          let ny := pex / plen
          updatePaths newPaths paired [{ x := baseX + dPaired * nx, y := baseY + dPaired * ny }]

/-- `triSymmetry === 'cw' ? 0 : 2`, the edge treated as the "right" edge
by `applySquareEdit` (`src/Square.tsx`). -/
def rightIdxForTranslate (sym : TriSym) : ℕ :=
  match sym with
  | .cw => 0
  | .ccw => 2

/-- `applySquareEdit` (`src/Square.tsx`): the three sequential blocks of
the source — top-edge edit (per mode), right-edge edit (translate/glide
only), and bottom-(driven-)edge edit (all modes). The `CENTER` argument
of the source is unused by the function body. -/
noncomputable def applySquareEdit (newPaths : Paths) (activePoint : Option ActivePoint)
    (baseVertices : List Point) (triSymmetry : TriSym) (transformType : SqMode)
    (CENTER : ℝ) : Paths :=
  match activePoint with
  | none => newPaths
  | some ap =>
    let driven : ℕ := 3
    let p1 : Paths :=
      if ap.edgeIdx = 1 then
        let topIdx : ℕ := 1
        match transformType with
        | .translate =>
          let tv0 := getP baseVertices topIdx
          let tv1 := getP baseVertices ((topIdx + 1) % 4)
          let tmx := (tv0.x + tv1.x) / 2
          let tmy := (tv0.y + tv1.y) / 2
          let tcp := getP (newPaths topIdx) 0
          let tvx := tcp.x - tmx
          let tvy := tcp.y - tmy
          let bottomIdx := driven
          let bv0 := getP baseVertices bottomIdx
          let bv1 := getP baseVertices ((bottomIdx + 1) % 4)
          let bmx := (bv0.x + bv1.x) / 2
          let bmy := (bv0.y + bv1.y) / 2
          updatePaths newPaths bottomIdx [{ x := bmx + tvx, y := bmy + tvy }]
        | .glide =>
          let tcp := getP (newPaths topIdx) 0
          let bottomIdx := driven
          let guideCx := (baseVertices.foldl (fun s v => s + v.x) 0) / (baseVertices.length : ℝ)
          let guideCy := (baseVertices.foldl (fun s v => s + v.y) 0) / (baseVertices.length : ℝ)
          let mirrored : Point := { x := 2 * guideCx - tcp.x, y := 2 * guideCy - tcp.y }
          let bv0 := getP baseVertices bottomIdx
          let bv1 := getP baseVertices ((bottomIdx + 1) % 4)
          let ax := bv0.x
          let ay := bv0.y
          let bx := bv1.x
          let by' := bv1.y
          let abx := bx - ax
          let aby := by' - ay
          let abLen2 := jsOr (abx * abx + aby * aby) 1
          let apx := mirrored.x - ax
          let apy := mirrored.y - ay
          let t := (apx * abx + apy * aby) / abLen2
          let projx := ax + t * abx
          let projy := ay + t * aby
          updatePaths newPaths bottomIdx
            [{ x := 2 * projx - mirrored.x, y := 2 * projy - mirrored.y }]
        | .rotate90 =>
          let rightIdx := rightIdxForTranslate triSymmetry
          let tv0 := getP baseVertices topIdx
          let tv1 := getP baseVertices ((topIdx + 1) % 4)
          let tmx := (tv0.x + tv1.x) / 2
          let tmy := (tv0.y + tv1.y) / 2
          let tcp := getP (newPaths topIdx) 0
          let tvx := tcp.x - tmx
          let tvy := tcp.y - tmy
          let trad := Real.pi / 2
          let trx := Real.cos trad * tvx - Real.sin trad * tvy
          let try' := Real.sin trad * tvx + Real.cos trad * tvy
          let rp0 := getP baseVertices rightIdx
          let rp1 := getP baseVertices ((rightIdx + 1) % 4)
          let rmx := (rp0.x + rp1.x) / 2
          let rmy := (rp0.y + rp1.y) / 2
          updatePaths newPaths rightIdx [{ x := rmx + trx, y := rmy + try' }]
      else newPaths
    let leftIdx : ℕ := 2
    let p2 : Paths :=
      if ap.edgeIdx = rightIdxForTranslate triSymmetry then
        match transformType with
        | .translate =>
          let rp0 := getP baseVertices (rightIdxForTranslate triSymmetry)
          let rp1 := getP baseVertices ((rightIdxForTranslate triSymmetry + 1) % 4)
          let rmx := (rp0.x + rp1.x) / 2
          let rmy := (rp0.y + rp1.y) / 2
          let rcp := getP (p1 (rightIdxForTranslate triSymmetry)) 0
          let rvx := rcp.x - rmx
          let rvy := rcp.y - rmy
          let lv0 := getP baseVertices leftIdx
          let lv1 := getP baseVertices ((leftIdx + 1) % 4)
          let lmx := (lv0.x + lv1.x) / 2
          let lmy := (lv0.y + lv1.y) / 2
          updatePaths p1 leftIdx [{ x := lmx + rvx, y := lmy + rvy }]
        | .glide =>
          let rcp := getP (p1 (rightIdxForTranslate triSymmetry)) 0
          let guideCx := (baseVertices.foldl (fun s v => s + v.x) 0) / (baseVertices.length : ℝ)
          let guideCy := (baseVertices.foldl (fun s v => s + v.y) 0) / (baseVertices.length : ℝ)
          let mirrored : Point := { x := 2 * guideCx - rcp.x, y := 2 * guideCy - rcp.y }
          let lv0 := getP baseVertices leftIdx
          let lv1 := getP baseVertices ((leftIdx + 1) % 4)
          let ax := lv0.x
          let ay := lv0.y
          let bx := lv1.x
          let by' := lv1.y
          let abx := bx - ax
          let aby := by' - ay
          let abLen2 := jsOr (abx * abx + aby * aby) 1
          let apx := mirrored.x - ax
          let apy := mirrored.y - ay
          let t := (apx * abx + apy * aby) / abLen2
          let projx := ax + t * abx
          let projy := ay + t * aby
          updatePaths p1 leftIdx
            [{ x := 2 * projx - mirrored.x, y := 2 * projy - mirrored.y }]
        | .rotate90 => p1
      else p1
    if ap.edgeIdx = driven then
      let bv0 := getP baseVertices driven
      let bv1 := getP baseVertices ((driven + 1) % 4)
      let bmx := (bv0.x + bv1.x) / 2
      let bmy := (bv0.y + bv1.y) / 2
      let drivenPts := p2 driven
      if 0 < drivenPts.length then
        let cp : Point :=
          if 2 ≤ drivenPts.length then
            { x := ((getP drivenPts 0).x + (getP drivenPts 1).x) / 2,
              y := ((getP drivenPts 0).y + (getP drivenPts 1).y) / 2 }
          else getP drivenPts 0
        let dvx := cp.x - bmx
        let dvy := cp.y - bmy
        let ang := Real.pi / 2
        let lx := Real.cos ang * dvx - Real.sin ang * dvy
        let ly := Real.sin ang * dvx + Real.cos ang * dvy
        let lv0 := getP baseVertices leftIdx
        let lv1 := getP baseVertices ((leftIdx + 1) % 4)
        let lmx := (lv0.x + lv1.x) / 2
        let lmy := (lv0.y + lv1.y) / 2
        updatePaths p2 leftIdx [{ x := lmx + lx, y := lmy + ly }]
      else p2
    else p2

/-- Triangle lattice (`src/Triangle.tsx`): `const s = RADIUS * Math.sqrt(3);
const stepX = s * 1.5;`. -/
noncomputable def triStepX (RADIUS : ℝ) : ℝ :=
  (RADIUS * Real.sqrt 3) * 1.5

/-- Triangle lattice (`src/Triangle.tsx`): `const stepY = s * Math.sqrt(3);`. -/
noncomputable def triStepY (RADIUS : ℝ) : ℝ :=
  (RADIUS * Real.sqrt 3) * Real.sqrt 3

/-- Triangle lattice cell x: `const hexCX = col * stepX;`. -/
noncomputable def triHexCX (RADIUS : ℝ) (col : ℤ) : ℝ :=
  (col : ℝ) * triStepX RADIUS

/-- Triangle lattice cell y:
`const hexCY = row * stepY + (col % 2 !== 0 ? stepY / 2 : 0);`. -/
noncomputable def triHexCY (RADIUS : ℝ) (row col : ℤ) : ℝ :=
  (row : ℝ) * triStepY RADIUS + (if col % 2 ≠ 0 then triStepY RADIUS / 2 else 0)

/-- Hexagon `rotate120` lattice (`src/Hexagon.tsx`):
`const s = RADIUS * 1.5; const stepX = s;`. -/
noncomputable def hexRotStepX (RADIUS : ℝ) : ℝ :=
  RADIUS * 1.5

/-- Hexagon `rotate120` lattice (`src/Hexagon.tsx`):
`const stepY = s * Math.sqrt(3)*2;`. -/
noncomputable def hexRotStepY (RADIUS : ℝ) : ℝ :=
  (RADIUS * 1.5) * Real.sqrt 3 * 2

/-- Hexagon `rotate120` lattice cell y:
`const hexCY = row * stepY + (col % 2 !== 0 ? stepY / 2 : 0);`. -/
noncomputable def hexRotCY (RADIUS : ℝ) (row col : ℤ) : ℝ :=
  (row : ℝ) * hexRotStepY RADIUS + (if col % 2 ≠ 0 then hexRotStepY RADIUS / 2 else 0)

/-!
Geometry-kernel operations, written after the spec's description
(spec section 4.1): point projection onto a segment, the inverse
reconstruction from `(t, d)`, reflection across a line
(project-then-double-then-subtract), point reflection, centroid.
They serve as the comparison side for the refinement claims about the
edge-constraint update rules.
-/

/-- Spec kernel `projectOntoSegment(p, a, b) -> {t, d}`: unclamped
parametric position by dot-product projection and signed perpendicular
distance on the side of the right-hand normal `(-dy, dx)`; for a
degenerate segment (`a = b`) it returns `t = 0.5, d = 0`. -/
noncomputable def projectOntoSegment (p a b : Point) : ℝ × ℝ :=
  if a.x = b.x ∧ a.y = b.y then (0.5, 0)
  else
    let ex := b.x - a.x
    let ey := b.y - a.y
    let len2 := ex ^ 2 + ey ^ 2
    let t := ((p.x - a.x) * ex + (p.y - a.y) * ey) / len2
    let d := ((p.x - a.x) * (-ey) + (p.y - a.y) * ex) / Real.sqrt len2
    (t, d)

/-- Spec kernel `pointAtParametric(a, b, t, d)`: walk `t` along `a → b`,
then offset by `d` along the unit right-hand normal (with the guarded
unit length of the source for a degenerate segment). -/
noncomputable def pointAtParametric (a b : Point) (t d : ℝ) : Point :=
  let ex := b.x - a.x
  let ey := b.y - a.y
  let len := jsOr (Real.sqrt (ex ^ 2 + ey ^ 2)) 1
  { x := a.x + t * ex + d * (-ey / len), y := a.y + t * ey + d * (ex / len) }

/-- Spec kernel `reflectAcrossLine(p, a, b)`: reflection of `p` across the
infinite line through `a, b`, implemented as
project-then-double-then-subtract (with the source's `|| 1` guard). -/
noncomputable def reflectAcrossLine (p a b : Point) : Point :=
  let abx := b.x - a.x
  let aby := b.y - a.y
  let abLen2 := jsOr (abx * abx + aby * aby) 1
  let t := ((p.x - a.x) * abx + (p.y - a.y) * aby) / abLen2
  let projx := a.x + t * abx
  let projy := a.y + t * aby
  { x := 2 * projx - p.x, y := 2 * projy - p.y }

/-- Point reflection through `c`: `2*c - p`. -/
def pointReflectThrough (c p : Point) : Point :=
  { x := 2 * c.x - p.x, y := 2 * c.y - p.y }

/-- Centroid of a vertex list, as computed by the source
(`baseVertices.reduce((s, v) => s + v.x, 0) / baseVertices.length`). -/
noncomputable def centroidOf (l : List Point) : Point :=
  { x := (l.foldl (fun s v => s + v.x) 0) / (l.length : ℝ),
    y := (l.foldl (fun s v => s + v.y) 0) / (l.length : ℝ) }

/-!  Small helper lemmas about the map update and the division guards. -/

theorem updatePaths_self (m : Paths) (k : ℕ) (v : List Point) :
    updatePaths m k v k = v := by
  simp [updatePaths]

theorem updatePaths_ne (m : Paths) (k j : ℕ) (v : List Point) (h : j ≠ k) :
    updatePaths m k v j = m j := by
  simp [updatePaths, h]

theorem jsOr_of_ne (a b : ℝ) (h : a ≠ 0) : jsOr a b = a := by
  simp [jsOr, h]

theorem jsOr_zero (b : ℝ) : jsOr 0 b = b := by
  simp [jsOr]

theorem sq_add_sq_pos {a b : ℝ} (h : ¬(a = 0 ∧ b = 0)) : 0 < a * a + b * b := by
  rcases lt_or_le 0 (a * a + b * b) with hp | hp
  · exact hp
  · exfalso
    apply h
    have ha : a * a = 0 ∧ b * b = 0 := by
      constructor <;> nlinarith [mul_self_nonneg a, mul_self_nonneg b]
    exact ⟨by nlinarith [ha.1], by nlinarith [ha.2]⟩

theorem sqrt_sq_add_sq_pos {a b : ℝ} (h : ¬(a = 0 ∧ b = 0)) :
    0 < Real.sqrt (a * a + b * b) :=
  Real.sqrt_pos.mpr (sq_add_sq_pos h)

/-- C3: in hexagon translate mode, editing a control point of a driven
edge `ei ∈ {1,3,5}` sets the opposite edge `(ei+3) mod 6` to a single
control point equal to that edge's own base midpoint plus the delta of
the moved point from its own edge's base midpoint. -/
theorem hexagon_translate_opposite_delta (m : Paths) (bv : List Point) (pi ei : ℕ)
    (hei : ei ∈ ([1, 3, 5] : List ℕ)) (hne : (m ei).length ≠ 0) :
    applyHexagonEdit m (some ⟨ei, pi⟩) bv HexMode.translate ((ei + 3) % 6)
      = [{ x := ((getP bv ((ei + 3) % 6)).x + (getP bv ((ei + 4) % 6)).x) / 2
             + ((getP (m ei) pi).x - ((getP bv ei).x + (getP bv ((ei + 1) % 6)).x) / 2),
           y := ((getP bv ((ei + 3) % 6)).y + (getP bv ((ei + 4) % 6)).y) / 2
             + ((getP (m ei) pi).y - ((getP bv ei).y + (getP bv ((ei + 1) % 6)).y) / 2) }] := by
  have hmem : ei = 1 ∨ ei = 3 ∨ ei = 5 := by simpa using hei
  rcases hmem with rfl | rfl | rfl <;>
  · simp only [applyHexagonEdit, if_neg hne]
    norm_num [updatePaths_self]
    constructor <;> ring

theorem hexagon_translate_opposite_delta_witness :
    (1 : ℕ) ∈ ([1, 3, 5] : List ℕ)
    ∧ (((fun i : ℕ => if i = 1 then [({ x := 7, y := 9 } : Point)] else ([] : List Point)) : Paths) 1).length ≠ 0
    ∧ applyHexagonEdit
        ((fun i : ℕ => if i = 1 then [({ x := 7, y := 9 } : Point)] else ([] : List Point)) : Paths)
        (some ⟨1, 0⟩)
        [⟨0, 0⟩, ⟨4, 0⟩, ⟨6, 2⟩, ⟨4, 4⟩, ⟨0, 4⟩, ⟨-2, 2⟩] HexMode.translate 4
      = [({ x := 1, y := 11 } : Point)] := by
  refine ⟨by decide, by simp, ?_⟩
  have h := hexagon_translate_opposite_delta
      ((fun i : ℕ => if i = 1 then [({ x := 7, y := 9 } : Point)] else ([] : List Point)) : Paths)
      [⟨0, 0⟩, ⟨4, 0⟩, ⟨6, 2⟩, ⟨4, 4⟩, ⟨0, 4⟩, ⟨-2, 2⟩] 0 1 (by decide) (by simp)
  refine h.trans ?_
  norm_num [getP, List.getD, Point.mk.injEq]

/-- C5: a triangle spare-edge edit that moves spare point `pi ∈ {0,1}`
(whose position is read from the map) sets the other spare point to
`2*midpoint - P` exactly, where `midpoint` is the midpoint of the spare
edge's base vertices, and leaves the driven and paired entries
untouched. -/
theorem triangle_spare_mirror (m : Paths) (bv : List Point) (sym : TriSym) (pi : ℕ)
    (hpi : pi = 0 ∨ pi = 1) (hlen : 2 ≤ (m (triSpare sym)).length) :
    getP (applyTriangleEdit m (some ⟨triSpare sym, pi⟩) bv sym (triSpare sym)) (1 - pi)
      = { x := 2 * (((getP bv (triSpare sym)).x + (getP bv ((triSpare sym + 1) % 3)).x) / 2)
             - (getP (m (triSpare sym)) pi).x,
          y := 2 * (((getP bv (triSpare sym)).y + (getP bv ((triSpare sym + 1) % 3)).y) / 2)
             - (getP (m (triSpare sym)) pi).y }
    ∧ applyTriangleEdit m (some ⟨triSpare sym, pi⟩) bv sym 1 = m 1
    ∧ applyTriangleEdit m (some ⟨triSpare sym, pi⟩) bv sym (triPaired sym)
        = m (triPaired sym) := by
  have hlt : 1 - pi < (m (triSpare sym)).length := by omega
  rcases sym <;> rcases hpi with rfl | rfl <;>
  · simp only [applyTriangleEdit, triSpare, triPaired] at *
    norm_num at *
    norm_num [updatePaths, getP, List.getD_eq_getElem?_getD,
      List.getElem?_set_eq_of_lt, hlt, if_pos hlen]

theorem triangle_spare_mirror_witness :
    ((0 : ℕ) = 0 ∨ (0 : ℕ) = 1)
    ∧ 2 ≤ (((fun i : ℕ => if i = 2 then [({ x := 10, y := 0 } : Point), ({ x := 99, y := 99 } : Point)] else ([] : List Point)) : Paths) (triSpare TriSym.cw)).length
    ∧ getP (applyTriangleEdit
        ((fun i : ℕ => if i = 2 then [({ x := 10, y := 0 } : Point), ({ x := 99, y := 99 } : Point)] else ([] : List Point)) : Paths)
        (some ⟨triSpare TriSym.cw, 0⟩)
        [⟨0, 0⟩, ⟨8, 0⟩, ⟨4, 6⟩] TriSym.cw (triSpare TriSym.cw)) (1 - 0)
      = ({ x := -6, y := 6 } : Point) := by
  have hsp : triSpare TriSym.cw = 2 := by decide
  have h := (triangle_spare_mirror
      ((fun i : ℕ => if i = 2 then [({ x := 10, y := 0 } : Point), ({ x := 99, y := 99 } : Point)] else ([] : List Point)) : Paths)
      [⟨0, 0⟩, ⟨8, 0⟩, ⟨4, 6⟩] TriSym.cw 0 (Or.inl rfl) (by rw [hsp]; simp)).1
  refine ⟨Or.inl rfl, by rw [hsp]; simp, h.trans ?_⟩
  rw [hsp]
  norm_num [getP, List.getD, Point.mk.injEq]

/-- C6: for each shape module and mode, an edit whose edge index is not
one of the role-assigned editable edges returns the input edge-path map
unchanged — triangle: any edge other than the driven edge 1 and the
spare edge; square `rotate90`: any edge other than the top edge 1 and
the driven bottom edge 3 (in particular the mode's derived right/left
edge, 0 for `cw` and 2 for `ccw`); square in any mode: any edge other
than the top edge, the mode's "right" edge and the driven bottom edge;
hexagon `rotate120`: any even edge; hexagon `translate`/`glide`: any
edge outside `{1,3,5}`. -/
theorem edit_outside_editable_is_noop :
    (∀ (m : Paths) (bv : List Point) (sym : TriSym) (ei pi : ℕ),
        ei ≠ 1 → ei ≠ triSpare sym →
        applyTriangleEdit m (some ⟨ei, pi⟩) bv sym = m)
    ∧ (∀ (m : Paths) (bv : List Point) (sym : TriSym) (c : ℝ) (ei pi : ℕ),
        ei ≠ 1 → ei ≠ 3 →
        applySquareEdit m (some ⟨ei, pi⟩) bv sym SqMode.rotate90 c = m)
    ∧ (∀ (m : Paths) (bv : List Point) (sym : TriSym) (mode : SqMode) (c : ℝ) (ei pi : ℕ),
        ei ≠ 1 → ei ≠ rightIdxForTranslate sym → ei ≠ 3 →
        applySquareEdit m (some ⟨ei, pi⟩) bv sym mode c = m)
    ∧ (∀ (m : Paths) (bv : List Point) (ei pi : ℕ),
        ei % 2 = 0 →
        applyHexagonEdit m (some ⟨ei, pi⟩) bv HexMode.rotate120 = m)
    ∧ (∀ (m : Paths) (bv : List Point) (mode : HexMode) (ei pi : ℕ),
        mode ≠ HexMode.rotate120 → ei ∉ ([1, 3, 5] : List ℕ) →
        applyHexagonEdit m (some ⟨ei, pi⟩) bv mode = m) := by
  refine ⟨?_, ?_, ?_, ?_, ?_⟩
  · intro m bv sym ei pi h1 h2
    simp [applyTriangleEdit, h1, h2]
  · intro m bv sym c ei pi h1 h3
    by_cases h2 : ei = rightIdxForTranslate sym
    · subst h2
      rcases sym <;> simp [applySquareEdit, rightIdxForTranslate]
    · rcases sym <;> simp only [rightIdxForTranslate] at h2 <;>
        simp [applySquareEdit, rightIdxForTranslate, h1, h2, h3]
  · intro m bv sym mode c ei pi h1 h2 h3
    simp [applySquareEdit, h1, h2, h3]
  · intro m bv ei pi h
    have h1 : ¬(ei % 2 = 1) := by omega
    simp [applyHexagonEdit, h1]
  · intro m bv mode ei pi hmode hni
    rcases mode with _ | _ | _
    · exact absurd rfl hmode
    · simp [applyHexagonEdit, hni]
    · simp [applyHexagonEdit, hni]

theorem edit_outside_editable_is_noop_witness :
    ((0 : ℕ) ≠ 1 ∧ (0 : ℕ) ≠ triSpare TriSym.cw
      ∧ (2 : ℕ) ≠ 1 ∧ (2 : ℕ) ≠ 3 ∧ (0 : ℕ) ≠ 3
      ∧ (2 : ℕ) ≠ rightIdxForTranslate TriSym.cw
      ∧ (2 : ℕ) % 2 = 0 ∧ HexMode.glide ≠ HexMode.rotate120 ∧ (0 : ℕ) ∉ ([1, 3, 5] : List ℕ))
    ∧ applyTriangleEdit ((fun _ => [({ x := 1, y := 2 } : Point)]) : Paths)
        (some ⟨0, 0⟩) [] TriSym.cw = ((fun _ => [({ x := 1, y := 2 } : Point)]) : Paths)
    ∧ applySquareEdit ((fun _ => [({ x := 1, y := 2 } : Point)]) : Paths)
        (some ⟨2, 0⟩) [] TriSym.ccw SqMode.rotate90 0 = ((fun _ => [({ x := 1, y := 2 } : Point)]) : Paths)
    ∧ applySquareEdit ((fun _ => [({ x := 1, y := 2 } : Point)]) : Paths)
        (some ⟨0, 0⟩) [] TriSym.cw SqMode.rotate90 0 = ((fun _ => [({ x := 1, y := 2 } : Point)]) : Paths)
    ∧ applySquareEdit ((fun _ => [({ x := 1, y := 2 } : Point)]) : Paths)
        (some ⟨2, 0⟩) [] TriSym.cw SqMode.glide 0 = ((fun _ => [({ x := 1, y := 2 } : Point)]) : Paths)
    ∧ applyHexagonEdit ((fun _ => [({ x := 1, y := 2 } : Point)]) : Paths)
        (some ⟨2, 0⟩) [] HexMode.rotate120 = ((fun _ => [({ x := 1, y := 2 } : Point)]) : Paths)
    ∧ applyHexagonEdit ((fun _ => [({ x := 1, y := 2 } : Point)]) : Paths)
        (some ⟨0, 0⟩) [] HexMode.glide = ((fun _ => [({ x := 1, y := 2 } : Point)]) : Paths) := by
  refine ⟨by refine ⟨by decide, by decide, by decide, by decide, by decide, by decide, by decide,
      by decide, by decide⟩, ?_, ?_, ?_, ?_, ?_, ?_⟩
  · exact edit_outside_editable_is_noop.1 _ [] TriSym.cw 0 0 (by decide) (by decide)
  · exact edit_outside_editable_is_noop.2.1 _ [] TriSym.ccw 0 2 0 (by decide) (by decide)
  · exact edit_outside_editable_is_noop.2.1 _ [] TriSym.cw 0 0 0 (by decide) (by decide)
  · exact edit_outside_editable_is_noop.2.2.1 _ [] TriSym.cw SqMode.glide 0 2 0
      (by decide) (by decide) (by decide)
  · exact edit_outside_editable_is_noop.2.2.2.1 _ [] 2 0 (by decide)
  · exact edit_outside_editable_is_noop.2.2.2.2 _ [] HexMode.glide 0 0 (by decide) (by decide)

/-- C10 (amended): a hexagon edit on a driven edge (odd index in
`rotate120`; index in `{1,3,5}` in `translate`/`glide`) whose edge entry
is nonempty changes the map only at the paired edge's entry, and that
entry becomes a sequence of exactly one control point, whatever lengths
the edited or paired entries had before. -/
theorem hexagon_driven_edit_frame (m : Paths) (bv : List Point) (mode : HexMode)
    (ei pi paired : ℕ)
    (hp : (mode = HexMode.rotate120 ∧ ei % 2 = 1 ∧ paired = (ei + 5) % 6)
        ∨ (mode ≠ HexMode.rotate120 ∧ ei ∈ ([1, 3, 5] : List ℕ) ∧ paired = (ei + 3) % 6))
    (hne : (m ei).length ≠ 0) :
    (∀ j, j ≠ paired → applyHexagonEdit m (some ⟨ei, pi⟩) bv mode j = m j)
    ∧ (applyHexagonEdit m (some ⟨ei, pi⟩) bv mode paired).length = 1 := by
  constructor
  · intro j hj
    rcases hp with ⟨hm, hodd, hpaired⟩ | ⟨hm, hmem, hpaired⟩
    · subst hm; subst hpaired
      simp [applyHexagonEdit, if_neg hne, hodd, updatePaths, hj]
    · subst hpaired
      rcases mode with _ | _ | _
      · exact absurd rfl hm
      · simp [applyHexagonEdit, if_neg hne, hmem, updatePaths, hj]
      · simp [applyHexagonEdit, if_neg hne, hmem, updatePaths, hj]
  · rcases hp with ⟨hm, hodd, hpaired⟩ | ⟨hm, hmem, hpaired⟩
    · subst hm; subst hpaired
      simp [applyHexagonEdit, if_neg hne, hodd, updatePaths]
    · subst hpaired
      rcases mode with _ | _ | _
      · exact absurd rfl hm
      · simp [applyHexagonEdit, if_neg hne, hmem, updatePaths]
      · simp [applyHexagonEdit, if_neg hne, hmem, updatePaths]

theorem hexagon_driven_edit_frame_witness :
    ((HexMode.rotate120 = HexMode.rotate120 ∧ (1 : ℕ) % 2 = 1 ∧ (0 : ℕ) = (1 + 5) % 6)
      ∨ (HexMode.rotate120 ≠ HexMode.rotate120 ∧ (1 : ℕ) ∈ ([1, 3, 5] : List ℕ) ∧ (0 : ℕ) = (1 + 3) % 6))
    ∧ (((fun i : ℕ => if i = 1 then [({ x := 1, y := 1 } : Point), ({ x := 2, y := 2 } : Point)] else [({ x := 3, y := 3 } : Point), ({ x := 4, y := 4 } : Point)]) : Paths) 1).length ≠ 0
    ∧ applyHexagonEdit
        ((fun i : ℕ => if i = 1 then [({ x := 1, y := 1 } : Point), ({ x := 2, y := 2 } : Point)] else [({ x := 3, y := 3 } : Point), ({ x := 4, y := 4 } : Point)]) : Paths)
        (some ⟨1, 0⟩) [] HexMode.rotate120 2
      = [({ x := 3, y := 3 } : Point), ({ x := 4, y := 4 } : Point)]
    ∧ (applyHexagonEdit
        ((fun i : ℕ => if i = 1 then [({ x := 1, y := 1 } : Point), ({ x := 2, y := 2 } : Point)] else [({ x := 3, y := 3 } : Point), ({ x := 4, y := 4 } : Point)]) : Paths)
        (some ⟨1, 0⟩) [] HexMode.rotate120 0).length = 1 := by
  have h := hexagon_driven_edit_frame
      ((fun i : ℕ => if i = 1 then [({ x := 1, y := 1 } : Point), ({ x := 2, y := 2 } : Point)] else [({ x := 3, y := 3 } : Point), ({ x := 4, y := 4 } : Point)]) : Paths)
      [] HexMode.rotate120 1 0 0 (Or.inl ⟨rfl, by decide, by decide⟩) (by simp)
  exact ⟨Or.inl ⟨rfl, by decide, by decide⟩, by simp,
    (h.1 2 (by decide)).trans (by simp), h.2⟩

theorem hexagon_driven_edit_frame_cex :
    ¬ ((applyHexagonEdit ((fun _ => []) : Paths) (some ⟨1, 0⟩) [] HexMode.rotate120) 0).length = 1 := by
  simp [applyHexagonEdit]

/-- C9 (amended): the triangle lattice uses horizontal step
`1.5 × (RADIUS·√3)` and vertical step `(RADIUS·√3)·√3` — `1.5×` and `√3×`
the motif circumradius `s = RADIUS·√3` (the triangle side) — with odd
columns offset by half the vertical step; the hexagon `rotate120`
lattice uses horizontal step `1.5 × RADIUS` but vertical step
`2√3 ×` that horizontal step (i.e. `3√3·RADIUS`, not circumradius`×√3`),
again with odd columns offset by half the vertical step. -/
theorem lattice_step_constants (R : ℝ) (row k : ℤ) :
    triStepX R = 1.5 * (R * Real.sqrt 3)
    ∧ triStepY R = (R * Real.sqrt 3) * Real.sqrt 3
    ∧ triHexCX R k = (k : ℝ) * triStepX R
    ∧ triHexCY R row (2 * k) = (row : ℝ) * triStepY R
    ∧ triHexCY R row (2 * k + 1) = (row : ℝ) * triStepY R + triStepY R / 2
    ∧ hexRotStepX R = 1.5 * R
    ∧ hexRotStepY R = 2 * Real.sqrt 3 * hexRotStepX R
    ∧ hexRotCY R row (2 * k) = (row : ℝ) * hexRotStepY R
    ∧ hexRotCY R row (2 * k + 1) = (row : ℝ) * hexRotStepY R + hexRotStepY R / 2 := by
  have heven : (2 * k) % 2 = 0 := by omega
  have hodd : (2 * k + 1) % 2 ≠ 0 := by omega
  refine ⟨by rw [triStepX]; ring, rfl, rfl, ?_, ?_, by rw [hexRotStepX]; ring, ?_, ?_, ?_⟩
  · simp [triHexCY, heven]
  · simp [triHexCY, hodd]
  · rw [hexRotStepY, hexRotStepX]; ring
  · simp [hexRotCY, heven]
  · simp [hexRotCY, hodd]

theorem lattice_step_constants_cex :
    ¬ ∃ c : ℝ, hexRotStepX 1 = 1.5 * c ∧ hexRotStepY 1 = c * Real.sqrt 3 := by
  rintro ⟨c, h1, h2⟩
  have hc : c = 1 := by rw [hexRotStepX] at h1; norm_num at h1; linarith
  rw [hc, hexRotStepY] at h2
  have h3 : 0 < Real.sqrt 3 := Real.sqrt_pos.mpr (by norm_num)
  nlinarith [h3, h2]

/-- C1: editing a control point on the triangle's driven edge 1 makes
`applyTriangleEdit` recompute every paired-edge control point by taking
the driven point's `(t, d)` relative to the driven edge's base segment
(vertices 1 and 2) and reconstructing the paired point at parametric
position `1 - t` and distance `-d` relative to the paired edge's base
segment, where the paired edge is `(1+2) mod 3` for `cw` symmetry and
`(1+1) mod 3` for `ccw`. -/
theorem triangle_driven_edit_mirrors_td (m : Paths) (bv : List Point) (sym : TriSym) (pi : ℕ) :
    applyTriangleEdit m (some ⟨1, pi⟩) bv sym (triPaired sym)
      = (m 1).map (fun cp =>
          pointAtParametric (getP bv (triPaired sym)) (getP bv ((triPaired sym + 1) % 3))
            (1 - (projectOntoSegment cp (getP bv 1) (getP bv 2)).1)
            (-(projectOntoSegment cp (getP bv 1) (getP bv 2)).2)) := by
  rcases sym with _ | _ <;>
  · simp only [applyTriangleEdit, triPaired, triSpare]
    norm_num [updatePaths]
    intro a _
    by_cases hdeg : (getP bv 1).x = (getP bv 2).x ∧ (getP bv 1).y = (getP bv 2).y
    · have h1 := hdeg.1
      have h2 := hdeg.2
      simp only [projectOntoSegment, if_pos hdeg, pointAtParametric]
      rw [← h1, ← h2]
      norm_num [jsOr_zero, Point.mk.injEq]
    · have hne2 : ¬((getP bv 2).x - (getP bv 1).x = 0 ∧ (getP bv 2).y - (getP bv 1).y = 0) := by
        intro h
        exact hdeg ⟨by linarith [h.1], by linarith [h.2]⟩
      have hpos : 0 < ((getP bv 2).x - (getP bv 1).x) ^ 2 + ((getP bv 2).y - (getP bv 1).y) ^ 2 := by
        nlinarith [sq_add_sq_pos hne2]
      have hs : Real.sqrt (((getP bv 2).x - (getP bv 1).x) ^ 2 + ((getP bv 2).y - (getP bv 1).y) ^ 2) ≠ 0 :=
        ne_of_gt (Real.sqrt_pos.mpr hpos)
      simp only [projectOntoSegment, if_neg hdeg, pointAtParametric, if_pos hpos,
        jsOr_of_ne _ _ hs, Point.mk.injEq]
      constructor <;> ring

theorem jsOr_one_pos {a : ℝ} (ha : 0 ≤ a) : 0 < jsOr a 1 := by
  unfold jsOr
  split
  · norm_num
  · rename_i h
    exact lt_of_le_of_ne ha (Ne.symm h)

/-- C7 (amended): on an edge whose two base vertices coincide, the
triangle's `applyTriangleEdit` substitutes `t = 0.5` (and its `d`
evaluates to `0`), so every paired point lands at
`pointAtParametric pv0 pv1 (1-0.5) (-0)`; the hexagon's `computeTD`
instead substitutes a squared length of `1` and returns `t = 0, d = 0`;
and the `|| 1` length guards are strictly positive, so no division by
zero occurs in any apply-edit output. -/
theorem degenerate_edge_projection :
    (∀ (bv : List Point) (p : Point) (ei : ℕ), getP bv ei = getP bv ((ei + 1) % 6) →
        (hexComputeTD bv ei p).t = 0 ∧ (hexComputeTD bv ei p).d = 0)
    ∧ (∀ (m : Paths) (bv : List Point) (sym : TriSym) (pi : ℕ), getP bv 1 = getP bv 2 →
        applyTriangleEdit m (some ⟨1, pi⟩) bv sym (triPaired sym)
          = List.replicate (m 1).length (pointAtParametric (getP bv (triPaired sym))
              (getP bv ((triPaired sym + 1) % 3)) (1 - 0.5) (-0)))
    ∧ (∀ a b : ℝ, 0 < jsOr (a * a + b * b) 1 ∧ 0 < jsOr (Real.sqrt (a * a + b * b)) 1) := by
  refine ⟨?_, ?_, ?_⟩
  · intro bv p ei h
    simp only [hexComputeTD]
    rw [← h]
    norm_num [jsOr_zero]
  · intro m bv sym pi h
    have h1 : (getP bv 1).x = (getP bv 2).x := by rw [h]
    have h2 : (getP bv 1).y = (getP bv 2).y := by rw [h]
    rcases sym with _ | _ <;>
    · simp only [applyTriangleEdit, triPaired, triSpare]
      norm_num [updatePaths]
      rw [← List.map_const]
      refine List.map_congr_left fun a ha => ?_
      simp only [pointAtParametric, Function.const]
      rw [← h1, ← h2]
      norm_num [jsOr_zero, Point.mk.injEq]
  · intro a b
    exact ⟨jsOr_one_pos (by nlinarith [mul_self_nonneg a, mul_self_nonneg b]),
      jsOr_one_pos (Real.sqrt_nonneg _)⟩

theorem degenerate_edge_projection_witness :
    getP [⟨0, 0⟩, ⟨1, 1⟩, ⟨1, 1⟩] 1 = getP [⟨0, 0⟩, ⟨1, 1⟩, ⟨1, 1⟩] ((1 + 1) % 6)
    ∧ (hexComputeTD [⟨0, 0⟩, ⟨1, 1⟩, ⟨1, 1⟩] 1 ⟨3, 4⟩).t = 0
    ∧ (hexComputeTD [⟨0, 0⟩, ⟨1, 1⟩, ⟨1, 1⟩] 1 ⟨3, 4⟩).d = 0
    ∧ applyTriangleEdit ((fun _ => [({ x := 7, y := 8 } : Point)]) : Paths) (some ⟨1, 0⟩)
        [⟨0, 0⟩, ⟨1, 1⟩, ⟨1, 1⟩] TriSym.cw (triPaired TriSym.cw)
      = List.replicate 1 (pointAtParametric (getP [⟨0, 0⟩, ⟨1, 1⟩, ⟨1, 1⟩] (triPaired TriSym.cw))
          (getP [⟨0, 0⟩, ⟨1, 1⟩, ⟨1, 1⟩] ((triPaired TriSym.cw + 1) % 3)) (1 - 0.5) (-0))
    ∧ 0 < jsOr ((3 : ℝ) * 3 + 4 * 4) 1 := by
  have hdeg : getP [(⟨0, 0⟩ : Point), ⟨1, 1⟩, ⟨1, 1⟩] 1
      = getP [(⟨0, 0⟩ : Point), ⟨1, 1⟩, ⟨1, 1⟩] ((1 + 1) % 6) := by
    norm_num [getP, List.getD]
  have hhex := degenerate_edge_projection.1 [⟨0, 0⟩, ⟨1, 1⟩, ⟨1, 1⟩] ⟨3, 4⟩ 1 hdeg
  have htri := degenerate_edge_projection.2.1 ((fun _ => [({ x := 7, y := 8 } : Point)]) : Paths)
      [⟨0, 0⟩, ⟨1, 1⟩, ⟨1, 1⟩] TriSym.cw 0 hdeg
  exact ⟨hdeg, hhex.1, hhex.2, htri, (degenerate_edge_projection.2.2 3 4).1⟩

theorem degenerate_edge_projection_cex :
    ¬ ((hexComputeTD [⟨0, 0⟩, ⟨1, 1⟩, ⟨1, 1⟩] 1 ⟨3, 4⟩).t = 0.5) := by
  norm_num [hexComputeTD, getP, List.getD, jsOr]

/-- C4: in square glide mode, editing the top edge (index 1) sets the
bottom edge (index 3) to the moved point first reflected through the
square's centroid (`2*centroid - p`) and then reflected across the
infinite line through the bottom edge's base vertices; the same
composition maps the mode's "right" edge onto the left edge (index 2)
across the left edge's base line. -/
theorem square_glide_centroid_then_reflect (m : Paths) (bv : List Point) (sym : TriSym)
    (c : ℝ) (pi : ℕ) (hne1 : m 1 ≠ []) (hne2 : m (rightIdxForTranslate sym) ≠ []) :
    applySquareEdit m (some ⟨1, pi⟩) bv sym SqMode.glide c 3
      = [reflectAcrossLine (pointReflectThrough (centroidOf bv) (getP (m 1) 0))
          (getP bv 3) (getP bv ((3 + 1) % 4))]
    ∧ applySquareEdit m (some ⟨rightIdxForTranslate sym, pi⟩) bv sym SqMode.glide c 2
      = [reflectAcrossLine (pointReflectThrough (centroidOf bv) (getP (m (rightIdxForTranslate sym)) 0))
          (getP bv 2) (getP bv ((2 + 1) % 4))] := by
  rcases sym with _ | _ <;>
  · constructor <;>
    · simp only [applySquareEdit, rightIdxForTranslate, reflectAcrossLine,
        pointReflectThrough, centroidOf]
      norm_num [updatePaths, Point.mk.injEq]

theorem square_glide_centroid_then_reflect_witness :
    (((fun i : ℕ => if i = 1 then [({ x := 5, y := 5 } : Point)] else [({ x := 9, y := 9 } : Point)]) : Paths) 1 ≠ [])
    ∧ (((fun i : ℕ => if i = 1 then [({ x := 5, y := 5 } : Point)] else [({ x := 9, y := 9 } : Point)]) : Paths) (rightIdxForTranslate TriSym.cw) ≠ [])
    ∧ applySquareEdit
        ((fun i : ℕ => if i = 1 then [({ x := 5, y := 5 } : Point)] else [({ x := 9, y := 9 } : Point)]) : Paths)
        (some ⟨1, 0⟩) [⟨2, 0⟩, ⟨2, 2⟩, ⟨0, 2⟩, ⟨0, 0⟩] TriSym.cw SqMode.glide 200 3
      = [({ x := -3, y := 3 } : Point)] := by
  refine ⟨by simp, by simp [rightIdxForTranslate], ?_⟩
  have h := (square_glide_centroid_then_reflect
      ((fun i : ℕ => if i = 1 then [({ x := 5, y := 5 } : Point)] else [({ x := 9, y := 9 } : Point)]) : Paths)
      [⟨2, 0⟩, ⟨2, 2⟩, ⟨0, 2⟩, ⟨0, 0⟩] TriSym.cw 200 0 (by simp)
      (by simp [rightIdxForTranslate])).1
  refine h.trans ?_
  norm_num [reflectAcrossLine, pointReflectThrough, centroidOf, getP, List.getD, jsOr,
    Point.mk.injEq]

set_option maxHeartbeats 1600000 in
/-- C2 (amended): in hexagon glide mode the driven edges are 1, 3 and 5
(not 1, 2, 5), each mapped to the opposite edge `(ei+3) mod 6`, and each
update applies the same glide relation: provided the hexagon's vertices
are centrally symmetric about the centroid (as the app's regular hexagon
is) and the edited edge is non-degenerate, the paired control point is
the moved point reflected through the centroid and then reflected across
the partner edge's base line. -/
theorem hexagon_glide_drives_135 (m : Paths) (bv : List Point) (pi ei : ℕ)
    (hei : ei ∈ ([1, 3, 5] : List ℕ)) (hne : (m ei).length ≠ 0)
    (h0 : getP bv ((ei + 3) % 6) = pointReflectThrough (centroidOf bv) (getP bv ei))
    (h1 : getP bv ((ei + 4) % 6) = pointReflectThrough (centroidOf bv) (getP bv ((ei + 1) % 6)))
    (hnd : ¬((getP bv ((ei + 1) % 6)).x - (getP bv ei).x = 0
           ∧ (getP bv ((ei + 1) % 6)).y - (getP bv ei).y = 0)) :
    applyHexagonEdit m (some ⟨ei, pi⟩) bv HexMode.glide ((ei + 3) % 6)
      = [reflectAcrossLine (pointReflectThrough (centroidOf bv) (getP (m ei) pi))
          (getP bv ((ei + 3) % 6)) (getP bv ((ei + 4) % 6))] := by
  have hmem : ei = 1 ∨ ei = 3 ∨ ei = 5 := by simpa using hei
  rcases hmem with rfl | rfl | rfl
  · simp only [applyHexagonEdit, hexComputeTD, if_neg hne]
    norm_num [updatePaths]
    rw [h0, h1]
    simp only [pointReflectThrough, reflectAcrossLine]
    set A := getP bv 1 with hA
    set B := getP bv 2 with hB
    set C := centroidOf bv with hC
    set P := getP (m 1) pi with hP
    rw [show (A.y - B.y) * (A.y - B.y) + (B.x - A.x) * (B.x - A.x)
          = (B.x - A.x) * (B.x - A.x) + (B.y - A.y) * (B.y - A.y) from by ring]
    rw [show (2 * C.x - B.x - (2 * C.x - A.x)) * (2 * C.x - B.x - (2 * C.x - A.x))
          + (2 * C.y - B.y - (2 * C.y - A.y)) * (2 * C.y - B.y - (2 * C.y - A.y))
          = (B.x - A.x) * (B.x - A.x) + (B.y - A.y) * (B.y - A.y) from by ring]
    have hR : (B.x - A.x) * (B.x - A.x) + (B.y - A.y) * (B.y - A.y) ≠ 0 :=
      ne_of_gt (sq_add_sq_pos hnd)
    have hRnn : 0 ≤ (B.x - A.x) * (B.x - A.x) + (B.y - A.y) * (B.y - A.y) := by
      nlinarith [mul_self_nonneg (B.x - A.x), mul_self_nonneg (B.y - A.y)]
    have hs : Real.sqrt ((B.x - A.x) * (B.x - A.x) + (B.y - A.y) * (B.y - A.y)) ≠ 0 :=
      ne_of_gt (Real.sqrt_pos.mpr (lt_of_le_of_ne hRnn (Ne.symm hR)))
    have hss : Real.sqrt ((B.x - A.x) * (B.x - A.x) + (B.y - A.y) * (B.y - A.y))
        * Real.sqrt ((B.x - A.x) * (B.x - A.x) + (B.y - A.y) * (B.y - A.y))
        = (B.x - A.x) * (B.x - A.x) + (B.y - A.y) * (B.y - A.y) :=
      Real.mul_self_sqrt hRnn
    rw [jsOr_of_ne _ _ hR, jsOr_of_ne _ _ hs]
    generalize hgen : Real.sqrt ((B.x - A.x) * (B.x - A.x) + (B.y - A.y) * (B.y - A.y)) = s
      at hss hs ⊢
    rw [← hss]
    simp only [List.cons.injEq, and_true, Point.mk.injEq]
    constructor
    · field_simp
      linear_combination (-(P.x - A.x) * s ^ 9) * hss
    · field_simp
      linear_combination (-(P.y - A.y) * s ^ 9) * hss
  · simp only [applyHexagonEdit, hexComputeTD, if_neg hne]
    norm_num [updatePaths]
    rw [h0, h1]
    simp only [pointReflectThrough, reflectAcrossLine]
    set A := getP bv 3 with hA
    set B := getP bv 4 with hB
    set C := centroidOf bv with hC
    set P := getP (m 3) pi with hP
    rw [show (A.y - B.y) * (A.y - B.y) + (B.x - A.x) * (B.x - A.x)
          = (B.x - A.x) * (B.x - A.x) + (B.y - A.y) * (B.y - A.y) from by ring]
    rw [show (2 * C.x - B.x - (2 * C.x - A.x)) * (2 * C.x - B.x - (2 * C.x - A.x))
          + (2 * C.y - B.y - (2 * C.y - A.y)) * (2 * C.y - B.y - (2 * C.y - A.y))
          = (B.x - A.x) * (B.x - A.x) + (B.y - A.y) * (B.y - A.y) from by ring]
    have hR : (B.x - A.x) * (B.x - A.x) + (B.y - A.y) * (B.y - A.y) ≠ 0 :=
      ne_of_gt (sq_add_sq_pos hnd)
    have hRnn : 0 ≤ (B.x - A.x) * (B.x - A.x) + (B.y - A.y) * (B.y - A.y) := by
      nlinarith [mul_self_nonneg (B.x - A.x), mul_self_nonneg (B.y - A.y)]
    have hs : Real.sqrt ((B.x - A.x) * (B.x - A.x) + (B.y - A.y) * (B.y - A.y)) ≠ 0 :=
      ne_of_gt (Real.sqrt_pos.mpr (lt_of_le_of_ne hRnn (Ne.symm hR)))
    have hss : Real.sqrt ((B.x - A.x) * (B.x - A.x) + (B.y - A.y) * (B.y - A.y))
        * Real.sqrt ((B.x - A.x) * (B.x - A.x) + (B.y - A.y) * (B.y - A.y))
        = (B.x - A.x) * (B.x - A.x) + (B.y - A.y) * (B.y - A.y) :=
      Real.mul_self_sqrt hRnn
    rw [jsOr_of_ne _ _ hR, jsOr_of_ne _ _ hs]
    generalize hgen : Real.sqrt ((B.x - A.x) * (B.x - A.x) + (B.y - A.y) * (B.y - A.y)) = s
      at hss hs ⊢
    rw [← hss]
    simp only [List.cons.injEq, and_true, Point.mk.injEq]
    constructor
    · field_simp
      linear_combination (-(P.x - A.x) * s ^ 9) * hss
    · field_simp
      linear_combination (-(P.y - A.y) * s ^ 9) * hss
  · simp only [applyHexagonEdit, hexComputeTD, if_neg hne]
    norm_num [updatePaths]
    rw [h0, h1]
    simp only [pointReflectThrough, reflectAcrossLine]
    set A := getP bv 5 with hA
    set B := getP bv 0 with hB
    set C := centroidOf bv with hC
    set P := getP (m 5) pi with hP
    rw [show (A.y - B.y) * (A.y - B.y) + (B.x - A.x) * (B.x - A.x)
          = (B.x - A.x) * (B.x - A.x) + (B.y - A.y) * (B.y - A.y) from by ring]
    rw [show (2 * C.x - B.x - (2 * C.x - A.x)) * (2 * C.x - B.x - (2 * C.x - A.x))
          + (2 * C.y - B.y - (2 * C.y - A.y)) * (2 * C.y - B.y - (2 * C.y - A.y))
          = (B.x - A.x) * (B.x - A.x) + (B.y - A.y) * (B.y - A.y) from by ring]
    have hR : (B.x - A.x) * (B.x - A.x) + (B.y - A.y) * (B.y - A.y) ≠ 0 :=
      ne_of_gt (sq_add_sq_pos hnd)
    have hRnn : 0 ≤ (B.x - A.x) * (B.x - A.x) + (B.y - A.y) * (B.y - A.y) := by
      nlinarith [mul_self_nonneg (B.x - A.x), mul_self_nonneg (B.y - A.y)]
    have hs : Real.sqrt ((B.x - A.x) * (B.x - A.x) + (B.y - A.y) * (B.y - A.y)) ≠ 0 :=
      ne_of_gt (Real.sqrt_pos.mpr (lt_of_le_of_ne hRnn (Ne.symm hR)))
    have hss : Real.sqrt ((B.x - A.x) * (B.x - A.x) + (B.y - A.y) * (B.y - A.y))
        * Real.sqrt ((B.x - A.x) * (B.x - A.x) + (B.y - A.y) * (B.y - A.y))
        = (B.x - A.x) * (B.x - A.x) + (B.y - A.y) * (B.y - A.y) :=
      Real.mul_self_sqrt hRnn
    rw [jsOr_of_ne _ _ hR, jsOr_of_ne _ _ hs]
    generalize hgen : Real.sqrt ((B.x - A.x) * (B.x - A.x) + (B.y - A.y) * (B.y - A.y)) = s
      at hss hs ⊢
    rw [← hss]
    simp only [List.cons.injEq, and_true, Point.mk.injEq]
    constructor
    · field_simp
      linear_combination (-(P.x - A.x) * s ^ 9) * hss
    · field_simp
      linear_combination (-(P.y - A.y) * s ^ 9) * hss

theorem hexagon_glide_drives_135_witness :
    (1 : ℕ) ∈ ([1, 3, 5] : List ℕ)
    ∧ (((fun i : ℕ => if i = 1 then [({ x := 0, y := 3 } : Point)] else ([] : List Point)) : Paths) 1).length ≠ 0
    ∧ getP [⟨2, 0⟩, ⟨1, 2⟩, ⟨-1, 2⟩, ⟨-2, 0⟩, ⟨-1, -2⟩, ⟨1, -2⟩] ((1 + 3) % 6)
        = pointReflectThrough (centroidOf [⟨2, 0⟩, ⟨1, 2⟩, ⟨-1, 2⟩, ⟨-2, 0⟩, ⟨-1, -2⟩, ⟨1, -2⟩])
            (getP [⟨2, 0⟩, ⟨1, 2⟩, ⟨-1, 2⟩, ⟨-2, 0⟩, ⟨-1, -2⟩, ⟨1, -2⟩] 1)
    ∧ applyHexagonEdit
        ((fun i : ℕ => if i = 1 then [({ x := 0, y := 3 } : Point)] else ([] : List Point)) : Paths)
        (some ⟨1, 0⟩) [⟨2, 0⟩, ⟨1, 2⟩, ⟨-1, 2⟩, ⟨-2, 0⟩, ⟨-1, -2⟩, ⟨1, -2⟩] HexMode.glide 4
      = [reflectAcrossLine
          (pointReflectThrough (centroidOf [⟨2, 0⟩, ⟨1, 2⟩, ⟨-1, 2⟩, ⟨-2, 0⟩, ⟨-1, -2⟩, ⟨1, -2⟩])
            ({ x := 0, y := 3 } : Point))
          (getP [⟨2, 0⟩, ⟨1, 2⟩, ⟨-1, 2⟩, ⟨-2, 0⟩, ⟨-1, -2⟩, ⟨1, -2⟩] 4)
          (getP [⟨2, 0⟩, ⟨1, 2⟩, ⟨-1, 2⟩, ⟨-2, 0⟩, ⟨-1, -2⟩, ⟨1, -2⟩] 5)] := by
  have hc : centroidOf [(⟨2, 0⟩ : Point), ⟨1, 2⟩, ⟨-1, 2⟩, ⟨-2, 0⟩, ⟨-1, -2⟩, ⟨1, -2⟩]
      = ({ x := 0, y := 0 } : Point) := by
    norm_num [centroidOf, Point.mk.injEq]
  have h0 : getP [(⟨2, 0⟩ : Point), ⟨1, 2⟩, ⟨-1, 2⟩, ⟨-2, 0⟩, ⟨-1, -2⟩, ⟨1, -2⟩] ((1 + 3) % 6)
      = pointReflectThrough (centroidOf [⟨2, 0⟩, ⟨1, 2⟩, ⟨-1, 2⟩, ⟨-2, 0⟩, ⟨-1, -2⟩, ⟨1, -2⟩])
          (getP [⟨2, 0⟩, ⟨1, 2⟩, ⟨-1, 2⟩, ⟨-2, 0⟩, ⟨-1, -2⟩, ⟨1, -2⟩] 1) := by
    rw [hc]
    norm_num [getP, List.getD, pointReflectThrough, Point.mk.injEq]
  have h1 : getP [(⟨2, 0⟩ : Point), ⟨1, 2⟩, ⟨-1, 2⟩, ⟨-2, 0⟩, ⟨-1, -2⟩, ⟨1, -2⟩] ((1 + 4) % 6)
      = pointReflectThrough (centroidOf [⟨2, 0⟩, ⟨1, 2⟩, ⟨-1, 2⟩, ⟨-2, 0⟩, ⟨-1, -2⟩, ⟨1, -2⟩])
          (getP [⟨2, 0⟩, ⟨1, 2⟩, ⟨-1, 2⟩, ⟨-2, 0⟩, ⟨-1, -2⟩, ⟨1, -2⟩] ((1 + 1) % 6)) := by
    rw [hc]
    norm_num [getP, List.getD, pointReflectThrough, Point.mk.injEq]
  have hnd : ¬((getP [(⟨2, 0⟩ : Point), ⟨1, 2⟩, ⟨-1, 2⟩, ⟨-2, 0⟩, ⟨-1, -2⟩, ⟨1, -2⟩] ((1 + 1) % 6)).x
        - (getP [(⟨2, 0⟩ : Point), ⟨1, 2⟩, ⟨-1, 2⟩, ⟨-2, 0⟩, ⟨-1, -2⟩, ⟨1, -2⟩] 1).x = 0
      ∧ (getP [(⟨2, 0⟩ : Point), ⟨1, 2⟩, ⟨-1, 2⟩, ⟨-2, 0⟩, ⟨-1, -2⟩, ⟨1, -2⟩] ((1 + 1) % 6)).y
        - (getP [(⟨2, 0⟩ : Point), ⟨1, 2⟩, ⟨-1, 2⟩, ⟨-2, 0⟩, ⟨-1, -2⟩, ⟨1, -2⟩] 1).y = 0) := by
    norm_num [getP, List.getD]
  have h := hexagon_glide_drives_135
      ((fun i : ℕ => if i = 1 then [({ x := 0, y := 3 } : Point)] else ([] : List Point)) : Paths)
      [⟨2, 0⟩, ⟨1, 2⟩, ⟨-1, 2⟩, ⟨-2, 0⟩, ⟨-1, -2⟩, ⟨1, -2⟩] 0 1 (by decide) (by simp) h0 h1 hnd
  exact ⟨by decide, by simp, h0, h⟩

theorem hexagon_glide_pairing_cex :
    applyHexagonEdit
        ((fun i : ℕ => if i = 2 then [({ x := 5, y := 5 } : Point)]
          else if i = 3 then [({ x := 0, y := 0 } : Point)] else ([] : List Point)) : Paths)
        (some ⟨2, 0⟩) [⟨0, 0⟩, ⟨2, 0⟩, ⟨3, 1⟩, ⟨2, 2⟩, ⟨0, 2⟩, ⟨-1, 1⟩] HexMode.glide 3
      = [({ x := 0, y := 0 } : Point)]
    ∧ ¬ applyHexagonEdit
        ((fun i : ℕ => if i = 2 then [({ x := 5, y := 5 } : Point)]
          else if i = 3 then [({ x := 0, y := 0 } : Point)] else ([] : List Point)) : Paths)
        (some ⟨2, 0⟩) [⟨0, 0⟩, ⟨2, 0⟩, ⟨3, 1⟩, ⟨2, 2⟩, ⟨0, 2⟩, ⟨-1, 1⟩] HexMode.glide 3
      = [reflectAcrossLine
          (pointReflectThrough (centroidOf [⟨0, 0⟩, ⟨2, 0⟩, ⟨3, 1⟩, ⟨2, 2⟩, ⟨0, 2⟩, ⟨-1, 1⟩])
            ({ x := 5, y := 5 } : Point))
          (getP [⟨0, 0⟩, ⟨2, 0⟩, ⟨3, 1⟩, ⟨2, 2⟩, ⟨0, 2⟩, ⟨-1, 1⟩] 3)
          (getP [⟨0, 0⟩, ⟨2, 0⟩, ⟨3, 1⟩, ⟨2, 2⟩, ⟨0, 2⟩, ⟨-1, 1⟩] 4)] := by
  have hid : applyHexagonEdit
      ((fun i : ℕ => if i = 2 then [({ x := 5, y := 5 } : Point)]
        else if i = 3 then [({ x := 0, y := 0 } : Point)] else ([] : List Point)) : Paths)
      (some ⟨2, 0⟩) [⟨0, 0⟩, ⟨2, 0⟩, ⟨3, 1⟩, ⟨2, 2⟩, ⟨0, 2⟩, ⟨-1, 1⟩] HexMode.glide 3
      = [({ x := 0, y := 0 } : Point)] := by
    simp [applyHexagonEdit]
  refine ⟨hid, fun hcl => ?_⟩
  rw [hid] at hcl
  rw [show centroidOf [(⟨0, 0⟩ : Point), ⟨2, 0⟩, ⟨3, 1⟩, ⟨2, 2⟩, ⟨0, 2⟩, ⟨-1, 1⟩]
      = ({ x := 1, y := 1 } : Point) from by norm_num [centroidOf, Point.mk.injEq]] at hcl
  norm_num [reflectAcrossLine, pointReflectThrough, getP, List.getD, jsOr, Point.mk.injEq] at hcl

theorem updatePaths_collapse (m : Paths) (k : ℕ) (v w : List Point) :
    updatePaths (updatePaths m k v) k w = updatePaths m k w := by
  funext j
  simp only [updatePaths]
  split_ifs <;> rfl

theorem getP_set_ne (l : List Point) (i j : ℕ) (a : Point) (h : ¬ j = i) :
    getP (l.set i a) j = getP l j := by
  simp [getP, List.getD_eq_getElem?_getD, List.getElem?_set_ne (fun hij => h hij.symm)]

theorem applyTriangleEdit_idem (m : Paths) (ap : Option ActivePoint) (bv : List Point)
    (sym : TriSym) :
    applyTriangleEdit (applyTriangleEdit m ap bv sym) ap bv sym
      = applyTriangleEdit m ap bv sym := by
  rcases ap with _ | ⟨ei, pi⟩
  · rfl
  by_cases h1 : ei = 1
  · subst h1
    rcases sym <;>
      simp [applyTriangleEdit, triPaired, triSpare, updatePaths, updatePaths_collapse]
  · by_cases hsp : ei = triSpare sym
    · subst hsp
      rcases sym
      · by_cases hlen : 2 ≤ (m 2).length
        · by_cases hpi : pi = 0 <;>
            simp [applyTriangleEdit, triPaired, triSpare, updatePaths, updatePaths_collapse,
              getP_set_ne, List.set_set, hlen, hpi]
        · by_cases hpi : pi = 0 <;>
            simp [applyTriangleEdit, triPaired, triSpare, updatePaths, hlen, hpi]
      · by_cases hlen : 2 ≤ (m 0).length
        · by_cases hpi : pi = 0 <;>
            simp [applyTriangleEdit, triPaired, triSpare, updatePaths, updatePaths_collapse,
              getP_set_ne, List.set_set, hlen, hpi]
        · by_cases hpi : pi = 0 <;>
            simp [applyTriangleEdit, triPaired, triSpare, updatePaths, hlen, hpi]
    · simp [applyTriangleEdit, h1, hsp]

theorem applyHexagonEdit_idem (m : Paths) (ap : Option ActivePoint) (bv : List Point)
    (mode : HexMode) :
    applyHexagonEdit (applyHexagonEdit m ap bv mode) ap bv mode
      = applyHexagonEdit m ap bv mode := by
  rcases ap with _ | ⟨ei, pi⟩
  · rfl
  by_cases hlen : (m ei).length = 0
  · simp [applyHexagonEdit, hlen]
  rcases mode with _ | _ | _
  · by_cases hodd : ei % 2 = 1
    · have hpne : ¬ ei = (ei + 5) % 6 := by omega
      simp [applyHexagonEdit, hlen, hodd, updatePaths, updatePaths_collapse, hpne]
    · simp [applyHexagonEdit, hlen, hodd]
  · by_cases hmem : ei ∈ ([1, 3, 5] : List ℕ)
    · have hmem' : ei = 1 ∨ ei = 3 ∨ ei = 5 := by simpa using hmem
      rcases hmem' with rfl | rfl | rfl <;>
        simp [applyHexagonEdit, hlen, updatePaths, updatePaths_collapse]
    · simp [applyHexagonEdit, hlen, hmem]
  · by_cases hmem : ei ∈ ([1, 3, 5] : List ℕ)
    · have hmem' : ei = 1 ∨ ei = 3 ∨ ei = 5 := by simpa using hmem
      rcases hmem' with rfl | rfl | rfl <;>
        simp [applyHexagonEdit, hlen, updatePaths, updatePaths_collapse]
    · simp [applyHexagonEdit, hlen, hmem]

theorem applySquareEdit_idem (m : Paths) (ei pi : ℕ) (bv : List Point)
    (sym : TriSym) (mode : SqMode) (c : ℝ)
    (h : ¬(mode = SqMode.glide ∧ sym = TriSym.ccw ∧ ei = 2)) :
    applySquareEdit (applySquareEdit m (some ⟨ei, pi⟩) bv sym mode c) (some ⟨ei, pi⟩)
        bv sym mode c
      = applySquareEdit m (some ⟨ei, pi⟩) bv sym mode c := by
  by_cases h1 : ei = 1
  · subst h1
    rcases sym <;> rcases mode <;>
      simp [applySquareEdit, rightIdxForTranslate, updatePaths, updatePaths_collapse, getP]
  · by_cases h2 : ei = rightIdxForTranslate sym
    · subst h2
      rcases sym <;> rcases mode
      · simp [applySquareEdit, rightIdxForTranslate]
      · simp [applySquareEdit, rightIdxForTranslate, updatePaths, updatePaths_collapse, getP]
      · simp [applySquareEdit, rightIdxForTranslate, updatePaths, updatePaths_collapse, getP]
      · simp [applySquareEdit, rightIdxForTranslate]
      · simp [applySquareEdit, rightIdxForTranslate, updatePaths, updatePaths_collapse, getP]
      · exact absurd ⟨rfl, rfl, rfl⟩ h
    · by_cases h3 : ei = 3
      · subst h3
        by_cases hl : 0 < (m 3).length
        · rcases sym <;> rcases mode <;>
            simp [applySquareEdit, rightIdxForTranslate, updatePaths, updatePaths_collapse,
              getP, hl]
        · rcases sym <;> rcases mode <;>
            simp [applySquareEdit, rightIdxForTranslate, updatePaths, hl]
      · rcases sym <;> simp only [rightIdxForTranslate] at h2 <;>
          simp [applySquareEdit, rightIdxForTranslate, h1, h2, h3]

/-- C8 (amended): applying the same edit twice yields the same edge-path
map as applying it once, for `applyTriangleEdit` and `applyHexagonEdit`
on all inputs, and for `applySquareEdit` on every edit except the one
combination glide mode + `ccw` symmetry + edge index 2, where the
derived left edge coincides with the edited edge and the function is not
idempotent. -/
theorem apply_edit_idempotent :
    (∀ (m : Paths) (ap : Option ActivePoint) (bv : List Point) (sym : TriSym),
        applyTriangleEdit (applyTriangleEdit m ap bv sym) ap bv sym
          = applyTriangleEdit m ap bv sym)
    ∧ (∀ (m : Paths) (ap : Option ActivePoint) (bv : List Point) (mode : HexMode),
        applyHexagonEdit (applyHexagonEdit m ap bv mode) ap bv mode
          = applyHexagonEdit m ap bv mode)
    ∧ (∀ (m : Paths) (ei pi : ℕ) (bv : List Point) (sym : TriSym) (mode : SqMode) (c : ℝ),
        ¬(mode = SqMode.glide ∧ sym = TriSym.ccw ∧ ei = 2) →
        applySquareEdit (applySquareEdit m (some ⟨ei, pi⟩) bv sym mode c) (some ⟨ei, pi⟩)
            bv sym mode c
          = applySquareEdit m (some ⟨ei, pi⟩) bv sym mode c) :=
  ⟨applyTriangleEdit_idem, applyHexagonEdit_idem, applySquareEdit_idem⟩

theorem apply_edit_idempotent_witness :
    ¬(SqMode.rotate90 = SqMode.glide ∧ TriSym.ccw = TriSym.ccw ∧ (2 : ℕ) = 2)
    ∧ applySquareEdit
        (applySquareEdit ((fun _ => [({ x := 0, y := 0 } : Point)]) : Paths)
          (some ⟨2, 0⟩) [] TriSym.ccw SqMode.rotate90 200)
        (some ⟨2, 0⟩) [] TriSym.ccw SqMode.rotate90 200
      = applySquareEdit ((fun _ => [({ x := 0, y := 0 } : Point)]) : Paths)
          (some ⟨2, 0⟩) [] TriSym.ccw SqMode.rotate90 200 := by
  refine ⟨by simp, ?_⟩
  exact apply_edit_idempotent.2.2 ((fun _ => [({ x := 0, y := 0 } : Point)]) : Paths)
    2 0 [] TriSym.ccw SqMode.rotate90 200 (by simp)

theorem apply_edit_idempotent_cex :
    ¬ (applySquareEdit
        (applySquareEdit
          ((fun i : ℕ => if i = 2 then [({ x := 5, y := 5 } : Point)] else ([] : List Point)) : Paths)
          (some ⟨2, 0⟩) [⟨2, 0⟩, ⟨2, 2⟩, ⟨0, 2⟩, ⟨0, 0⟩] TriSym.ccw SqMode.glide 200)
        (some ⟨2, 0⟩) [⟨2, 0⟩, ⟨2, 2⟩, ⟨0, 2⟩, ⟨0, 0⟩] TriSym.ccw SqMode.glide 200
      = applySquareEdit
          ((fun i : ℕ => if i = 2 then [({ x := 5, y := 5 } : Point)] else ([] : List Point)) : Paths)
          (some ⟨2, 0⟩) [⟨2, 0⟩, ⟨2, 2⟩, ⟨0, 2⟩, ⟨0, 0⟩] TriSym.ccw SqMode.glide 200) := by
  have ha : applySquareEdit
      ((fun i : ℕ => if i = 2 then [({ x := 5, y := 5 } : Point)] else ([] : List Point)) : Paths)
      (some ⟨2, 0⟩) [⟨2, 0⟩, ⟨2, 2⟩, ⟨0, 2⟩, ⟨0, 0⟩] TriSym.ccw SqMode.glide 200 2
      = [({ x := 3, y := -3 } : Point)] := by
    norm_num [applySquareEdit, rightIdxForTranslate, updatePaths, getP, List.getD, jsOr,
      Point.mk.injEq]
  intro hEq
  have hb := congrFun hEq 2
  rw [ha] at hb
  have hc : applySquareEdit
      (applySquareEdit
        ((fun i : ℕ => if i = 2 then [({ x := 5, y := 5 } : Point)] else ([] : List Point)) : Paths)
        (some ⟨2, 0⟩) [⟨2, 0⟩, ⟨2, 2⟩, ⟨0, 2⟩, ⟨0, 0⟩] TriSym.ccw SqMode.glide 200)
      (some ⟨2, 0⟩) [⟨2, 0⟩, ⟨2, 2⟩, ⟨0, 2⟩, ⟨0, 0⟩] TriSym.ccw SqMode.glide 200 2
      = [({ x := 1, y := 5 } : Point)] := by
    norm_num [applySquareEdit, rightIdxForTranslate, updatePaths, getP, List.getD, jsOr,
      Point.mk.injEq]
  rw [hc] at hb
  norm_num [Point.mk.injEq] at hb
